import Mathlib

/-!
Verification of the pbirestpy Power BI REST client core against its
specification: token cache, retry policies, header construction, batch
listing, and the refresh orchestration state machine.

Python source is shallowly embedded: datetimes become integer ticks,
dicts become functions to `Option`, awaited HTTP/log/sleep effects become
explicit action traces, and fallible code returns `Except`/`Option`.
Python's `str.lower()` is embedded as ASCII lowercasing, which agrees with
it on every string the code and spec mention.
-/

namespace PbiRest

/-! ## Status normalization (src/pbirestpy/resources/base.py) -/

/-- ASCII lowercasing of one character, the action of `str.lower()` on
the ASCII range. -/
def asciiLowerChar (c : Char) : Char :=
  if 65 ≤ c.toNat ∧ c.toNat ≤ 90 then Char.ofNat (c.toNat + 32) else c

/-- Embedding of Python `value.lower()` (ASCII fragment). -/
def asciiLower (s : String) : String :=
  String.mk (s.data.map asciiLowerChar)

/-- Embedding of `RefreshStatus` (enum in resources/base.py), with its six
members in declaration order. -/
inductive RefreshStatus where
  | InProgress
  | Completed
  | Failed
  | Pending
  | Cancelled
  | Total
deriving DecidableEq, Repr

/-- The `value` string of each `RefreshStatus` enum member. -/
def RefreshStatus.value : RefreshStatus → String
  | .InProgress => "InProgress"
  | .Completed => "Completed"
  | .Failed => "Failed"
  | .Pending => "Pending"
  | .Cancelled => "Cancelled"
  | .Total => "Total"

/-- The members of the enum in declaration order, as iterated by
`for member in cls`. -/
def RefreshStatus.members : List RefreshStatus :=
  [.InProgress, .Completed, .Failed, .Pending, .Cancelled, .Total]

/-- Embedding of `RefreshStatus.from_str`: the three special rewrites
(success, unknown, cancelling) followed by the case-insensitive member
scan, falling back to `Failed`. -/
def RefreshStatus.from_str (value : String) : RefreshStatus :=
  let v1 := if asciiLower value = "success" then "Completed" else value
  let v2 := if asciiLower v1 = "unknown" then "InProgress" else v1
  let v3 := if asciiLower v2 = "cancelling" then "Cancelled" else v2
  match RefreshStatus.members.find? (fun m => asciiLower m.value == asciiLower v3) with
  | some m => m
  | none => .Failed

/-- The amended spec's normalization table, written from the spec's words:
`Success` maps to `Completed`, `Unknown` to `InProgress`, `Cancelling` to
`Cancelled`, each enum member name (including `Total`) maps to itself
case-insensitively, and everything else maps to `Failed`. -/
def specNormalizeStatus (s : String) : RefreshStatus :=
  let l := asciiLower s
  if l = "success" then .Completed
  else if l = "unknown" then .InProgress
  else if l = "cancelling" then .Cancelled
  else if l = "inprogress" then .InProgress
  else if l = "completed" then .Completed
  else if l = "failed" then .Failed
  else if l = "pending" then .Pending
  else if l = "cancelled" then .Cancelled
  else if l = "total" then .Total
  else .Failed

theorem asciiLower_completed : asciiLower "Completed" = "completed" := by decide

theorem asciiLower_inprogress : asciiLower "InProgress" = "inprogress" := by decide

theorem asciiLower_cancelled : asciiLower "Cancelled" = "cancelled" := by decide

theorem asciiLower_failed : asciiLower "Failed" = "failed" := by decide

theorem asciiLower_pending : asciiLower "Pending" = "pending" := by decide

theorem asciiLower_total : asciiLower "Total" = "total" := by decide

/-- C3 counterexample: the payload status string "Total" is normalized to the
sixth enum member `Total`, which lies outside the claimed five-element
codomain, and it is not sent to `Failed` although it is not one of the five. -/
theorem from_str_total_escapes_claimed_set :
    RefreshStatus.from_str "Total" = RefreshStatus.Total ∧
    RefreshStatus.from_str "Total" ∉
      [RefreshStatus.Pending, RefreshStatus.InProgress, RefreshStatus.Completed,
       RefreshStatus.Failed, RefreshStatus.Cancelled] := by
  decide

/-- C3 (amended): `from_str` normalizes case-insensitively into the six-member
set (the five of the claim plus `Total`): Success maps to Completed, Unknown to
InProgress, Cancelling to Cancelled, each member name to itself, and any other
unrecognized string to Failed — exactly the table `specNormalizeStatus`. -/
theorem from_str_eq_specNormalizeStatus (s : String) :
    RefreshStatus.from_str s = specNormalizeStatus s := by
  unfold RefreshStatus.from_str specNormalizeStatus
  by_cases h1 : asciiLower s = "success"
  · simp only [h1, if_true, if_pos]
    decide
  · simp only [h1, if_false, if_neg]
    by_cases h2 : asciiLower s = "unknown"
    · simp only [h2, if_true, if_pos]
      decide
    · simp only [h2, if_false, if_neg]
      by_cases h3 : asciiLower s = "cancelling"
      · simp only [h3, if_true, if_pos]
        decide
      · simp only [h3, if_false, if_neg]
        by_cases h4 : asciiLower s = "inprogress"
        · simp only [h4, if_true, if_pos]
          decide
        · by_cases h5 : asciiLower s = "completed"
          · simp only [h5, if_true, if_pos]
            decide
          · by_cases h6 : asciiLower s = "failed"
            · simp only [h6, if_true, if_pos]
              decide
            · by_cases h7 : asciiLower s = "pending"
              · simp only [h7, if_true, if_pos]
                decide
              · by_cases h8 : asciiLower s = "cancelled"
                · simp only [h8, if_true, if_pos]
                  decide
                · by_cases h9 : asciiLower s = "total"
                  · simp only [h9, if_true, if_pos]
                    decide
                  · have n4 : ("inprogress" == asciiLower s) = false :=
                      beq_eq_false_iff_ne.mpr fun h => h4 h.symm
                    have n5 : ("completed" == asciiLower s) = false :=
                      beq_eq_false_iff_ne.mpr fun h => h5 h.symm
                    have n6 : ("failed" == asciiLower s) = false :=
                      beq_eq_false_iff_ne.mpr fun h => h6 h.symm
                    have n7 : ("pending" == asciiLower s) = false :=
                      beq_eq_false_iff_ne.mpr fun h => h7 h.symm
                    have n8 : ("cancelled" == asciiLower s) = false :=
                      beq_eq_false_iff_ne.mpr fun h => h8 h.symm
                    have n9 : ("total" == asciiLower s) = false :=
                      beq_eq_false_iff_ne.mpr fun h => h9 h.symm
                    have m4 : ¬("inprogress" = asciiLower s) := fun h => h4 h.symm
                    have m5 : ¬("completed" = asciiLower s) := fun h => h5 h.symm
                    have m6 : ¬("failed" = asciiLower s) := fun h => h6 h.symm
                    have m7 : ¬("pending" = asciiLower s) := fun h => h7 h.symm
                    have m8 : ¬("cancelled" = asciiLower s) := fun h => h8 h.symm
                    have m9 : ¬("total" = asciiLower s) := fun h => h9 h.symm
                    simp [RefreshStatus.members, RefreshStatus.value, List.find?,
                      asciiLower_inprogress, asciiLower_completed, asciiLower_failed,
                      asciiLower_pending, asciiLower_cancelled, asciiLower_total,
                      n4, n5, n6, n7, n8, n9, m4, m5, m6, m7, m8, m9,
                      h4, h5, h6, h7, h8, h9]

/-! ## Token and token cache (src/pbirestpy/auth/token.py, auth/authenticator.py) -/

/-- Embedding of the `Token` dataclass; datetimes and timedeltas are integer
ticks (seconds). -/
structure Token where
  access_token : String
  expires_in : Int
  issued_at : Int
  token_type : String := "Bearer"
deriving DecidableEq, Repr

/-- Embedding of `Token.expires_at`. -/
def Token.expires_at (t : Token) : Int :=
  t.issued_at + t.expires_in

/-- Embedding of `Token.is_expired` at clock reading `now`:
`datetime.now() >= self.expires_at`. -/
def Token.is_expired (t : Token) (now : Int) : Bool :=
  t.expires_at ≤ now

/-- Embedding of `Token.__str__`: the formatted header value. -/
def Token.toStr (t : Token) : String :=
  t.token_type ++ " " ++ t.access_token

/-- Result of one read of `ServicePrincipalAuthenticator.token`: the returned
header string, the cache afterwards, and whether a credential exchange ran. -/
structure TokenReadResult where
  header : String
  cached : Option Token
  exchanged : Bool
deriving DecidableEq, Repr

/-- Embedding of the `ServicePrincipalAuthenticator.token` property:
`aquire_token` (which stores a fresh token issued now with the configured
`expires_in`) runs exactly when no token is cached or the cached one is
expired; then the cached token is formatted with `str`. `newAccess` is the
access token the successful credential exchange would return. -/
def authenticatorToken (expiresIn : Int) (cached : Option Token) (now : Int)
    (newAccess : String) : TokenReadResult :=
  match cached with
  | none =>
    let t : Token := { access_token := newAccess, expires_in := expiresIn, issued_at := now }
    { header := t.toStr, cached := some t, exchanged := true }
  | some t =>
    if t.is_expired now then
      let t2 : Token := { access_token := newAccess, expires_in := expiresIn, issued_at := now }
      { header := t2.toStr, cached := some t2, exchanged := true }
    else
      { header := t.toStr, cached := some t, exchanged := false }

/-- C7: a read of the service-principal token exchanges credentials only when
nothing is cached or the cached token has expired (`now >= issuedAt + ttl`);
before expiry it returns the cached token formatted as scheme-space-token
without exchanging, leaves the cache untouched, and a second read before
expiry returns the same string. -/
theorem token_read_exchanges_only_when_expired (e : Int) (t : Token)
    (now now2 : Int) (na na2 : String)
    (h : now < t.issued_at + t.expires_in)
    (h2 : now2 < t.issued_at + t.expires_in) :
    (authenticatorToken e (some t) now na).exchanged = false ∧
    (authenticatorToken e (some t) now na).header = t.token_type ++ " " ++ t.access_token ∧
    (authenticatorToken e (some t) now na).cached = some t ∧
    (authenticatorToken e (some t) now2 na2).header = (authenticatorToken e (some t) now na).header ∧
    (authenticatorToken e none now na).exchanged = true ∧
    (∀ t2 : Token, t2.is_expired now = true →
      (authenticatorToken e (some t2) now na).exchanged = true) := by
  have hne : t.is_expired now = false := by
    simp [Token.is_expired, Token.expires_at]
    omega
  have hne2 : t.is_expired now2 = false := by
    simp [Token.is_expired, Token.expires_at]
    omega
  refine ⟨?_, ?_, ?_, ?_, ?_, ?_⟩
  · simp [authenticatorToken, hne]
  · simp [authenticatorToken, hne, Token.toStr]
  · simp [authenticatorToken, hne]
  · simp [authenticatorToken, hne, hne2]
  · simp [authenticatorToken]
  · intro t2 hexp
    simp [authenticatorToken, hexp]

/-- Witness for C7 at a concrete token and clock readings. -/
theorem token_read_exchanges_only_when_expired_witness :
    (0 : Int) < 0 + 1200 ∧ (7 : Int) < 0 + 1200 ∧
    ((authenticatorToken 1200 (some { access_token := "tok", expires_in := 1200, issued_at := 0 })
        0 "fresh").exchanged = false ∧
      (authenticatorToken 1200 (some { access_token := "tok", expires_in := 1200, issued_at := 0 })
        0 "fresh").header = "Bearer" ++ " " ++ "tok" ∧
      (authenticatorToken 1200 (some { access_token := "tok", expires_in := 1200, issued_at := 0 })
        0 "fresh").cached = some { access_token := "tok", expires_in := 1200, issued_at := 0 } ∧
      (authenticatorToken 1200 (some { access_token := "tok", expires_in := 1200, issued_at := 0 })
        7 "other").header =
        (authenticatorToken 1200 (some { access_token := "tok", expires_in := 1200, issued_at := 0 })
          0 "fresh").header ∧
      (authenticatorToken 1200 none 0 "fresh").exchanged = true ∧
      (∀ t2 : Token, t2.is_expired 0 = true →
        (authenticatorToken 1200 (some t2) 0 "fresh").exchanged = true)) :=
  ⟨by decide, by decide,
    token_read_exchanges_only_when_expired 1200
      { access_token := "tok", expires_in := 1200, issued_at := 0 }
      0 7 "fresh" "other" (by decide) (by decide)⟩

/-! ## Request headers (src/pbirestpy/client/session.py, BaseSession) -/

/-- Python dicts with string keys, embedded as partial maps. -/
def Dict : Type := String → Option String

/-- Embedding of `d[k] = v` / `d.update({k: v})` for a single key. -/
def dictInsert (d : Dict) (k v : String) : Dict :=
  fun x => if x = k then some v else d x

/-- The empty dict. -/
def emptyDict : Dict := fun _ => none

/-- Embedding of `BaseSession._build_headers`: start from the caller's
`headers` kwarg (default empty), overwrite `Authorization` with the
authenticator's token, then default `Content-Type` to `application/json`
only when absent. -/
def build_headers (kwargsHeaders : Option Dict) (token : String) : Dict :=
  let headers := match kwargsHeaders with
    | some h => h
    | none => emptyDict
  let headers := dictInsert headers "Authorization" token
  match headers "Content-Type" with
  | none => dictInsert headers "Content-Type" "application/json"
  | some _ => headers

/-- The headers `BaseSession._request` attaches to the outgoing wire request:
it installs `_build_headers(kwargs)` into `kwargs["headers"]` before sending. -/
def outgoingHeaders (callerHeaders : Option Dict) (token : String) : Dict :=
  build_headers callerHeaders token

/-- C10: the outgoing `Authorization` header always equals the authenticator's
token (a caller-supplied entry is overwritten), every other caller header is
forwarded unchanged, and `Content-Type` is defaulted to `application/json`
exactly when the caller did not set it. -/
theorem outgoing_headers_contract (h : Dict) (token : String) :
    outgoingHeaders (some h) token "Authorization" = some token ∧
    (∀ k, k ≠ "Authorization" → k ≠ "Content-Type" →
      outgoingHeaders (some h) token k = h k) ∧
    (∀ v, h "Content-Type" = some v →
      outgoingHeaders (some h) token "Content-Type" = some v) ∧
    (h "Content-Type" = none →
      outgoingHeaders (some h) token "Content-Type" = some "application/json") ∧
    outgoingHeaders none token "Authorization" = some token := by
  refine ⟨?_, ?_, ?_, ?_, ?_⟩
  · unfold outgoingHeaders build_headers dictInsert
    rcases hc : dictInsert h "Authorization" token "Content-Type" with _ | v
    · simp [dictInsert] at hc
      simp [hc, dictInsert]
    · simp [dictInsert] at hc
      simp [hc, dictInsert]
  · intro k hk1 hk2
    unfold outgoingHeaders build_headers
    rcases hc : dictInsert h "Authorization" token "Content-Type" with _ | v
    · simp [dictInsert, hk1, hk2]
    · simp [dictInsert, hk1, hk2]
  · intro v hv
    unfold outgoingHeaders build_headers
    have hc : dictInsert h "Authorization" token "Content-Type" = some v := by
      simp [dictInsert, hv]
    simp [hc]
  · intro hv
    unfold outgoingHeaders build_headers
    simp [hv, dictInsert]
  · unfold outgoingHeaders build_headers emptyDict
    simp [dictInsert]

/-- Witness for C10 at a concrete caller dict and token. -/
theorem outgoing_headers_contract_witness :
    outgoingHeaders (some (dictInsert emptyDict "X-Custom" "1")) "Bearer z" "Authorization"
        = some "Bearer z" ∧
      (∀ k, k ≠ "Authorization" → k ≠ "Content-Type" →
        outgoingHeaders (some (dictInsert emptyDict "X-Custom" "1")) "Bearer z" k
          = dictInsert emptyDict "X-Custom" "1" k) ∧
      (∀ v, dictInsert emptyDict "X-Custom" "1" "Content-Type" = some v →
        outgoingHeaders (some (dictInsert emptyDict "X-Custom" "1")) "Bearer z" "Content-Type"
          = some v) ∧
      (dictInsert emptyDict "X-Custom" "1" "Content-Type" = none →
        outgoingHeaders (some (dictInsert emptyDict "X-Custom" "1")) "Bearer z" "Content-Type"
          = some "application/json") ∧
      outgoingHeaders none "Bearer z" "Authorization" = some "Bearer z" :=
  outgoing_headers_contract (dictInsert emptyDict "X-Custom" "1") "Bearer z"

/-! ## Retry policies (src/pbirestpy/client/retry.py)

All request failures surfaced by `raise_for_status` are
`ClientResponseError` values carrying an HTTP status and response headers;
only the `Retry-After` header matters to the policies. -/

/-- A failed HTTP attempt: status code plus the raw `Retry-After` header
value, when the response carried one. -/
structure HttpError where
  status : Nat
  retryAfterHeader : Option String
deriving DecidableEq, Repr

/-- Embedding of `Retry.is_conflict_error`: status 409 or 400. -/
def is_conflict_error (e : HttpError) : Bool :=
  e.status == 409 || e.status == 400

/-- Embedding of `Retry.is_rate_limit_error`: status 429. -/
def is_rate_limit_error (e : HttpError) : Bool :=
  e.status == 429

/-- Value of digit characters read left to right. -/
def digitsVal (ds : List Char) : Nat :=
  ds.foldl (fun a c => a * 10 + (c.toNat - 48)) 0

/-- Integer core of Python `float(s)` on plain decimal notation (optional
sign, digits, optional fractional part): the signed numerator and the
power-of-ten denominator; `none` is the `ValueError` branch. -/
def pyFloatParseCore (s : String) : Option (Int × Nat) :=
  let cs := s.data
  let sign : Int := match cs with
    | '-' :: _ => -1
    | _ => 1
  let rest : List Char := match cs with
    | '-' :: t => t
    | '+' :: t => t
    | _ => cs
  let ip := rest.takeWhile Char.isDigit
  let rest2 := rest.dropWhile Char.isDigit
  match rest2 with
  | [] => if ip.length = 0 then none else some (sign * (digitsVal ip : Int), 1)
  | '.' :: fp =>
    if fp.all Char.isDigit = true ∧ ip.length + fp.length ≠ 0 then
      some (sign * ((digitsVal ip * 10 ^ fp.length + digitsVal fp : Nat) : Int), 10 ^ fp.length)
    else none
  | _ => none

/-- Embedding of Python `float(s)` as the rational it denotes. -/
def pyFloatParse (s : String) : Option ℚ :=
  (pyFloatParseCore s).map (fun p => (p.1 : ℚ) / (p.2 : ℚ))

/-- Embedding of `Retry.get_retry_after`: absent or empty header gives
`None`; otherwise the `float` parse, with `ValueError` giving `None`. -/
def get_retry_after (e : HttpError) : Option ℚ :=
  match e.retryAfterHeader with
  | none => none
  | some s => if s = "" then none else pyFloatParse s

/-- Fallback wait when the Retry-After header is unusable. -/
def DEFAULT_RETRY_AFTER : ℚ := 60

/-- Embedding of the `custom_wait` closure in `Retry.on_rate_limit`:
returns the parsed Retry-After value when it is truthy as a Python float
(i.e. nonzero), else the 60s default. -/
def custom_wait (e : HttpError) : ℚ :=
  match get_retry_after e with
  | some v => if v ≠ 0 then v else DEFAULT_RETRY_AFTER
  | none => DEFAULT_RETRY_AFTER

/-- Result of running a tenacity-decorated call: success, retries
exhausted (tenacity raises `RetryError` holding the last attempt's error),
or an unretryable error re-raised as-is. Each carries the number of
attempts made and the waits slept between attempts. -/
inductive RetryOutcome (α : Type) where
  | ok (value : α) (attempts : Nat) (waits : List ℚ)
  | exhausted (last : HttpError) (attempts : Nat) (waits : List ℚ)
  | raised (e : HttpError) (attempts : Nat) (waits : List ℚ)
deriving DecidableEq, Repr

def RetryOutcome.attempts : RetryOutcome α → Nat
  | .ok _ n _ => n
  | .exhausted _ n _ => n
  | .raised _ n _ => n

def RetryOutcome.waits : RetryOutcome α → List ℚ
  | .ok _ _ ws => ws
  | .exhausted _ _ ws => ws
  | .raised _ _ ws => ws

/-- Embedding of tenacity's retry loop with
`retry_if_exception p, stop_after_attempt N, wait w`: attempt `k` runs the
call (`o k`); on error, an unmatched exception is re-raised, the stop
condition `attempt_number >= N` raises `RetryError`, and otherwise the
loop sleeps `w e k` and tries again. -/
def tenacityGo (p : HttpError → Bool) (N : Nat) (w : HttpError → Nat → ℚ)
    (o : Nat → Except HttpError α) (k : Nat) (waits : List ℚ) : RetryOutcome α :=
  match o k with
  | .ok a => .ok a k waits
  | .error e =>
    if p e then
      if _h : N ≤ k then .exhausted e k waits
      else tenacityGo p N w o (k + 1) (waits ++ [w e k])
    else .raised e k waits
termination_by N - k
decreasing_by omega

/-- A tenacity-decorated call starts at attempt 1 with no waits slept. -/
def tenacityRun (p : HttpError → Bool) (N : Nat) (w : HttpError → Nat → ℚ)
    (o : Nat → Except HttpError α) : RetryOutcome α :=
  tenacityGo p N w o 1 []

/-- Embedding of tenacity `wait_random(min, max)`: `min + u * (max - min)`
where `u` is the uniform draw in `[0, 1)` used for the given attempt. -/
def wait_random (lo hi : ℚ) (u : Nat → ℚ) (_e : HttpError) (k : Nat) : ℚ :=
  lo + u k * (hi - lo)

/-- Embedding of `Retry.on_conflict()` around a call with per-attempt
results `o`. -/
def on_conflict (u : Nat → ℚ) (o : Nat → Except HttpError α) : RetryOutcome α :=
  tenacityRun is_conflict_error 5 (wait_random 10 20 u) o

/-- Embedding of `Retry.on_rate_limit()` around a call with per-attempt
results `o`. -/
def on_rate_limit (o : Nat → Except HttpError α) : RetryOutcome α :=
  tenacityRun is_rate_limit_error 10 (fun e _ => custom_wait e) o

theorem tenacityGo_attempts_le {α : Type} (p : HttpError → Bool) (N : Nat)
    (w : HttpError → Nat → ℚ) (o : Nat → Except HttpError α) :
    ∀ d k waits, k ≤ N → N - k ≤ d →
      (tenacityGo p N w o k waits).attempts ≤ N := by
  intro d
  induction d with
  | zero =>
    intro k waits hk hd
    rw [tenacityGo]
    rcases o k with e | a
    · by_cases hp : p e
      · have hNk : N ≤ k := by omega
        simp [hp, hNk, RetryOutcome.attempts]
        omega
      · simp [hp, RetryOutcome.attempts]
        omega
    · simp [RetryOutcome.attempts]
      omega
  | succ d ih =>
    intro k waits hk hd
    rw [tenacityGo]
    rcases o k with e | a
    · by_cases hp : p e
      · by_cases hNk : N ≤ k
        · simp [hp, hNk, RetryOutcome.attempts]
          omega
        · simp only [hp, hNk, if_true, if_false, dite_false, dite_true, if_pos, if_neg,
            not_false_iff]
          exact ih (k + 1) (waits ++ [w e k]) (by omega) (by omega)
      · simp [hp, RetryOutcome.attempts]
        omega
    · simp [RetryOutcome.attempts]
      omega

theorem tenacityGo_waits_bounded {α : Type} (p : HttpError → Bool) (N : Nat)
    (w : HttpError → Nat → ℚ) (o : Nat → Except HttpError α) (lo hi : ℚ)
    (hw : ∀ e k, lo ≤ w e k ∧ w e k ≤ hi) :
    ∀ d k waits, N - k ≤ d → (∀ q ∈ waits, lo ≤ q ∧ q ≤ hi) →
      ∀ q ∈ (tenacityGo p N w o k waits).waits, lo ≤ q ∧ q ≤ hi := by
  intro d
  induction d with
  | zero =>
    intro k waits hd hws
    rw [tenacityGo]
    rcases o k with e | a
    · by_cases hp : p e
      · have hNk : N ≤ k := by omega
        simpa [hp, hNk, RetryOutcome.waits] using hws
      · simpa [hp, RetryOutcome.waits] using hws
    · simpa [RetryOutcome.waits] using hws
  | succ d ih =>
    intro k waits hd hws
    rw [tenacityGo]
    rcases o k with e | a
    · by_cases hp : p e
      · by_cases hNk : N ≤ k
        · simpa [hp, hNk, RetryOutcome.waits] using hws
        · simp only [hp, hNk, if_true, if_false, dite_false, dite_true, if_pos, if_neg,
            not_false_iff]
          refine ih (k + 1) (waits ++ [w e k]) (by omega) ?_
          intro q hq
          rcases List.mem_append.mp hq with hq1 | hq2
          · exact hws q hq1
          · have : q = w e k := by simpa using hq2
            subst this
            exact hw e k
      · simpa [hp, RetryOutcome.waits] using hws
    · simpa [RetryOutcome.waits] using hws

theorem tenacityGo_step_ok {α : Type} (p : HttpError → Bool) (N : Nat)
    (w : HttpError → Nat → ℚ) (o : Nat → Except HttpError α) (k : Nat)
    (waits : List ℚ) (a : α) (he : o k = .ok a) :
    tenacityGo p N w o k waits = .ok a k waits := by
  rw [tenacityGo, he]

theorem tenacityGo_step_raised {α : Type} (p : HttpError → Bool) (N : Nat)
    (w : HttpError → Nat → ℚ) (o : Nat → Except HttpError α) (k : Nat)
    (waits : List ℚ) (e : HttpError) (he : o k = .error e) (hp : p e = false) :
    tenacityGo p N w o k waits = .raised e k waits := by
  rw [tenacityGo, he]
  simp [hp]

theorem tenacityGo_step_stop {α : Type} (p : HttpError → Bool) (N : Nat)
    (w : HttpError → Nat → ℚ) (o : Nat → Except HttpError α) (k : Nat)
    (waits : List ℚ) (e : HttpError) (he : o k = .error e) (hp : p e = true)
    (hk : N ≤ k) :
    tenacityGo p N w o k waits = .exhausted e k waits := by
  rw [tenacityGo, he]
  simp [hp, hk]

theorem tenacityGo_step_retry {α : Type} (p : HttpError → Bool) (N : Nat)
    (w : HttpError → Nat → ℚ) (o : Nat → Except HttpError α) (k : Nat)
    (waits : List ℚ) (e : HttpError) (he : o k = .error e) (hp : p e = true)
    (hk : k < N) :
    tenacityGo p N w o k waits = tenacityGo p N w o (k + 1) (waits ++ [w e k]) := by
  conv_lhs => rw [tenacityGo]
  rw [he]
  simp [hp, Nat.not_le.mpr hk]

/-- The behavior the conflict policy must satisfy, for uniform draws `u`:
the classifier fires exactly on status 400/409, at most 5 attempts are
made, every wait lies in the 10–20s band, a non-conflict failure is
surfaced at once, five straight conflict failures surface the fifth
error, and three 409s followed by a success succeed on attempt 4. -/
def ConflictPolicyContract (u : Nat → ℚ) : Prop :=
  (∀ e, is_conflict_error e = true ↔ (e.status = 400 ∨ e.status = 409)) ∧
  (∀ (α : Type) (o : Nat → Except HttpError α), (on_conflict u o).attempts ≤ 5) ∧
  (∀ (α : Type) (o : Nat → Except HttpError α) (q : ℚ),
    q ∈ (on_conflict u o).waits → 10 ≤ q ∧ q ≤ 20) ∧
  (∀ (α : Type) (o : Nat → Except HttpError α) (e : HttpError),
    o 1 = .error e → is_conflict_error e = false →
    on_conflict u o = .raised e 1 []) ∧
  (∀ (α : Type) (o : Nat → Except HttpError α) (es : Nat → HttpError),
    (∀ k, 1 ≤ k → k ≤ 5 → o k = .error (es k)) →
    (∀ k, is_conflict_error (es k) = true) →
    on_conflict u o = .exhausted (es 5) 5
      [wait_random 10 20 u (es 1) 1, wait_random 10 20 u (es 2) 2,
       wait_random 10 20 u (es 3) 3, wait_random 10 20 u (es 4) 4]) ∧
  (∀ (α : Type) (o : Nat → Except HttpError α) (es : Nat → HttpError) (a : α),
    (∀ k, 1 ≤ k → k ≤ 3 → o k = .error (es k)) →
    (∀ k, (es k).status = 409) →
    o 4 = .ok a →
    on_conflict u o = .ok a 4
      [wait_random 10 20 u (es 1) 1, wait_random 10 20 u (es 2) 2,
       wait_random 10 20 u (es 3) 3])

/-- C4: the conflict retry policy (`Retry.on_conflict`) triggers exactly
on HTTP 400/409, makes at most 5 attempts with each wait drawn uniformly
into [10s, 20s], surfaces the last error when attempts are exhausted, and
succeeds on the 4th attempt after three 409 failures. -/
theorem conflict_retry_policy (u : Nat → ℚ) (hu : ∀ n, 0 ≤ u n ∧ u n < 1) :
    ConflictPolicyContract u := by
  have hwb : ∀ (e : HttpError) (k : Nat),
      (10 : ℚ) ≤ wait_random 10 20 u e k ∧ wait_random 10 20 u e k ≤ 20 := by
    intro e k
    have h1 := (hu k).1
    have h2 := (hu k).2
    constructor
    · unfold wait_random
      nlinarith
    · unfold wait_random
      nlinarith
  refine ⟨?_, ?_, ?_, ?_, ?_, ?_⟩
  · intro e
    simp [is_conflict_error]
    tauto
  · intro α o
    exact tenacityGo_attempts_le _ 5 _ o 5 1 [] (by omega) (by omega)
  · intro α o q hq
    exact tenacityGo_waits_bounded _ 5 _ o 10 20 hwb 5 1 [] (by omega) (by simp) q hq
  · intro α o e he hp
    unfold on_conflict tenacityRun
    exact tenacityGo_step_raised _ 5 _ o 1 [] e he hp
  · intro α o es ho hce
    unfold on_conflict tenacityRun
    rw [tenacityGo_step_retry _ 5 _ o 1 [] (es 1) (ho 1 (by omega) (by omega)) (hce 1) (by omega)]
    rw [tenacityGo_step_retry _ 5 _ o 2 _ (es 2) (ho 2 (by omega) (by omega)) (hce 2) (by omega)]
    rw [tenacityGo_step_retry _ 5 _ o 3 _ (es 3) (ho 3 (by omega) (by omega)) (hce 3) (by omega)]
    rw [tenacityGo_step_retry _ 5 _ o 4 _ (es 4) (ho 4 (by omega) (by omega)) (hce 4) (by omega)]
    rw [tenacityGo_step_stop _ 5 _ o 5 _ (es 5) (ho 5 (by omega) (by omega)) (hce 5) (by omega)]
    simp
  · intro α o es a ho hst ho4
    have hce : ∀ k, k ≤ 3 → is_conflict_error (es k) = true := by
      intro k _
      simp [is_conflict_error, hst k]
    unfold on_conflict tenacityRun
    rw [tenacityGo_step_retry _ 5 _ o 1 [] (es 1) (ho 1 (by omega) (by omega))
      (hce 1 (by omega)) (by omega)]
    rw [tenacityGo_step_retry _ 5 _ o 2 _ (es 2) (ho 2 (by omega) (by omega))
      (hce 2 (by omega)) (by omega)]
    rw [tenacityGo_step_retry _ 5 _ o 3 _ (es 3) (ho 3 (by omega) (by omega))
      (hce 3 (by omega)) (by omega)]
    rw [tenacityGo_step_ok _ 5 _ o 4 _ a ho4]
    simp

/-- Witness for C4: the contract at the constant-zero uniform draw. -/
theorem conflict_retry_policy_witness : ConflictPolicyContract (fun _ => 0) :=
  conflict_retry_policy (fun _ => 0) (by intro n; norm_num)

/-- The behavior of the rate-limit policy: the classifier fires exactly on
status 429, at most 10 attempts are made, a non-429 failure is surfaced at
once, the wait honors a Retry-After header that parses to a nonzero float
and falls back to the 60s default otherwise (absent, empty, unparseable,
or parsing to zero), and ten straight 429s surface the tenth error. -/
def RateLimitPolicyContract : Prop :=
  (∀ e, is_rate_limit_error e = true ↔ e.status = 429) ∧
  (∀ (α : Type) (o : Nat → Except HttpError α), (on_rate_limit o).attempts ≤ 10) ∧
  (∀ (α : Type) (o : Nat → Except HttpError α) (e : HttpError),
    o 1 = .error e → is_rate_limit_error e = false →
    on_rate_limit o = .raised e 1 []) ∧
  (∀ (e : HttpError) (v : ℚ), get_retry_after e = some v → v ≠ 0 → custom_wait e = v) ∧
  (∀ e : HttpError, get_retry_after e = none → custom_wait e = DEFAULT_RETRY_AFTER) ∧
  (∀ e : HttpError, get_retry_after e = some 0 → custom_wait e = DEFAULT_RETRY_AFTER) ∧
  custom_wait { status := 429, retryAfterHeader := some "5" } = 5 ∧
  custom_wait { status := 429, retryAfterHeader := none } = DEFAULT_RETRY_AFTER ∧
  (∀ (α : Type) (o : Nat → Except HttpError α) (es : Nat → HttpError),
    (∀ k, 1 ≤ k → k ≤ 10 → o k = .error (es k)) →
    (∀ k, is_rate_limit_error (es k) = true) →
    on_rate_limit o = .exhausted (es 10) 10
      [custom_wait (es 1), custom_wait (es 2), custom_wait (es 3),
       custom_wait (es 4), custom_wait (es 5), custom_wait (es 6),
       custom_wait (es 7), custom_wait (es 8), custom_wait (es 9)])

/-- C5 (amended): the rate-limit retry policy (`Retry.on_rate_limit`)
triggers exactly on HTTP 429, makes at most 10 attempts, waits the parsed
Retry-After value when the header parses to a nonzero number of seconds
and the fixed 60s default otherwise, and surfaces the error once 10
attempts fail. -/
theorem rate_limit_retry_policy : RateLimitPolicyContract := by
  refine ⟨?_, ?_, ?_, ?_, ?_, ?_, ?_, ?_, ?_⟩
  · intro e
    simp [is_rate_limit_error]
  · intro α o
    exact tenacityGo_attempts_le _ 10 _ o 10 1 [] (by omega) (by omega)
  · intro α o e he hp
    unfold on_rate_limit tenacityRun
    exact tenacityGo_step_raised _ 10 _ o 1 [] e he hp
  · intro e v hv hnz
    simp [custom_wait, hv, hnz]
  · intro e hv
    simp [custom_wait, hv]
  · intro e hv
    simp [custom_wait, hv]
  · have h : pyFloatParseCore "5" = some (5, 1) := by decide
    simp [custom_wait, get_retry_after, pyFloatParse, h]
  · simp [custom_wait, get_retry_after]
  · intro α o es ho hre
    unfold on_rate_limit tenacityRun
    rw [tenacityGo_step_retry _ 10 _ o 1 [] (es 1) (ho 1 (by omega) (by omega)) (hre 1) (by omega)]
    rw [tenacityGo_step_retry _ 10 _ o 2 _ (es 2) (ho 2 (by omega) (by omega)) (hre 2) (by omega)]
    rw [tenacityGo_step_retry _ 10 _ o 3 _ (es 3) (ho 3 (by omega) (by omega)) (hre 3) (by omega)]
    rw [tenacityGo_step_retry _ 10 _ o 4 _ (es 4) (ho 4 (by omega) (by omega)) (hre 4) (by omega)]
    rw [tenacityGo_step_retry _ 10 _ o 5 _ (es 5) (ho 5 (by omega) (by omega)) (hre 5) (by omega)]
    rw [tenacityGo_step_retry _ 10 _ o 6 _ (es 6) (ho 6 (by omega) (by omega)) (hre 6) (by omega)]
    rw [tenacityGo_step_retry _ 10 _ o 7 _ (es 7) (ho 7 (by omega) (by omega)) (hre 7) (by omega)]
    rw [tenacityGo_step_retry _ 10 _ o 8 _ (es 8) (ho 8 (by omega) (by omega)) (hre 8) (by omega)]
    rw [tenacityGo_step_retry _ 10 _ o 9 _ (es 9) (ho 9 (by omega) (by omega)) (hre 9) (by omega)]
    rw [tenacityGo_step_stop _ 10 _ o 10 _ (es 10) (ho 10 (by omega) (by omega)) (hre 10) (by omega)]
    simp

/-- C5 counterexample: a 429 response with header `Retry-After: 0` is
present and parseable (it parses to 0 seconds), yet `custom_wait` falls
back to the 60-second default instead of waiting the parsed 0 seconds,
because `float` truthiness treats 0.0 as falsy. -/
theorem rate_limit_zero_retry_after_uses_default :
    get_retry_after { status := 429, retryAfterHeader := some "0" } = some 0 ∧
    custom_wait { status := 429, retryAfterHeader := some "0" } = DEFAULT_RETRY_AFTER ∧
    DEFAULT_RETRY_AFTER ≠ (0 : ℚ) := by
  have h : pyFloatParseCore "0" = some (0, 1) := by decide
  have hg : get_retry_after { status := 429, retryAfterHeader := some "0" } = some 0 := by
    simp [get_retry_after, pyFloatParse, h]
  refine ⟨hg, ?_, ?_⟩
  · simp [custom_wait, hg]
  · norm_num [DEFAULT_RETRY_AFTER]

/-! ## Resources and URLs (src/pbirestpy/resources)

`Refreshable` abstracts the two refresh-capable resource kinds (`Dataset`
and `Dataflow`); a `RefreshRecord` is the session's view of one refresh
history entry (`Refresh` / `Transaction`), with datetimes as integer
ticks. -/

inductive RefreshableKind where
  | dataset
  | dataflow
deriving DecidableEq, Repr

structure Refreshable where
  kind : RefreshableKind
  id : String
  name : String
  groupId : String
  groupName : String
deriving DecidableEq, Repr

structure RefreshRecord where
  id : String
  startTime : Int
  endTime : Option Int
  status : RefreshStatus
deriving DecidableEq, Repr

/-- Embedding of `BaseRefresh.is_in_progress`. -/
def RefreshRecord.is_in_progress (rec : RefreshRecord) : Bool :=
  rec.status == RefreshStatus.InProgress

/-- Embedding of `BaseRefresh.duration`: defined only when `endTime` is
present. -/
def RefreshRecord.duration (rec : RefreshRecord) : Option Int :=
  match rec.endTime with
  | some e => some (e - rec.startTime)
  | none => none

def BASE_URL : String := "https://api.powerbi.com/v1.0/myorg"

def isSlash (c : Char) : Bool := c == '/'

/-- Embedding of Python `path.lstrip('/')`. -/
def lstripSlashes (s : String) : String :=
  String.mk (s.data.dropWhile isSlash)

/-- Embedding of `BaseResource.build_url`. -/
def build_url (path : String) : String :=
  BASE_URL ++ "/" ++ lstripSlashes path

/-- Embedding of `Dataset.list_refreshes_url` / `Dataflow.list_refreshes_url`. -/
def list_refreshes_url (r : Refreshable) : String :=
  match r.kind with
  | .dataset =>
    build_url ("groups/" ++ r.groupId ++ "/datasets/" ++ r.id ++ "/refreshes?top=50")
  | .dataflow =>
    build_url ("groups/" ++ r.groupId ++ "/dataflows/" ++ r.id ++ "/transactions")

/-- Embedding of `Dataset.start_refresh_url` / `Dataflow.start_refresh_url`. -/
def start_refresh_url (r : Refreshable) : String :=
  match r.kind with
  | .dataset =>
    build_url ("groups/" ++ r.groupId ++ "/datasets/" ++ r.id ++ "/refreshes")
  | .dataflow =>
    build_url ("groups/" ++ r.groupId ++ "/dataflows/" ++ r.id ++ "/refreshes?procesType=default")

/-- Embedding of `Refresh.cancel_url` (dataset) and `Transaction.cancel_url`
(dataflow). -/
def cancel_url (r : Refreshable) (rec : RefreshRecord) : String :=
  match r.kind with
  | .dataset =>
    build_url ("groups/" ++ r.groupId ++ "/datasets/" ++ r.id ++ "/refreshes/" ++ rec.id)
  | .dataflow =>
    build_url ("groups/" ++ r.groupId ++ "/dataflows/transactions/" ++ rec.id ++ "/cancel")

/-! URL facts needed to count HTTP calls: a dataflow's cancel URL never
coincides with its start-refresh URL (they end in different characters). -/

theorem strLast_append (s t : String) (c : Char) (hc : t.data.getLast? = some c)
    (hne : t.data ≠ []) : (s ++ t).data.getLast? = some c := by
  rw [String.data_append, List.getLast?_append_of_ne_nil _ hne, hc]

theorem append_str_data_ne_nil (s t : String) (h : t.data ≠ []) : (s ++ t).data ≠ [] := by
  rw [String.data_append]
  intro hh
  exact h (List.append_eq_nil.mp hh).2

theorem groups_data_cons (x : String) :
    ("groups/" ++ x).data = 'g' :: ("roups/".data ++ x.data) := by
  rw [String.data_append]
  rfl

theorem groups_dropWhile (x : String) :
    ("groups/" ++ x).data.dropWhile isSlash = ("groups/" ++ x).data := by
  rw [groups_data_cons]
  have hg : isSlash 'g' = false := by decide
  simp [List.dropWhile, hg]

theorem build_url_groups (x : String) :
    build_url ("groups/" ++ x) = (BASE_URL ++ "/") ++ ("groups/" ++ x) := by
  unfold build_url lstripSlashes
  rw [groups_dropWhile]

theorem append_left_cancel_str {s t u : String} (h : s ++ t = s ++ u) : t = u := by
  have hd := congrArg String.data h
  rw [String.data_append, String.data_append] at hd
  have h2 := List.append_cancel_left hd
  cases t
  cases u
  exact congrArg String.mk h2

theorem dataflow_cancel_url_ne_start (gid tid did : String) :
    build_url ("groups/" ++ gid ++ "/dataflows/transactions/" ++ tid ++ "/cancel") ≠
      build_url ("groups/" ++ gid ++ "/dataflows/" ++ did ++ "/refreshes?procesType=default") := by
  intro h
  have e1 : ("groups/" ++ gid ++ "/dataflows/transactions/" ++ tid ++ "/cancel" : String)
      = "groups/" ++ (gid ++ "/dataflows/transactions/" ++ tid ++ "/cancel") := by
    simp [String.append_assoc]
  have e2 : ("groups/" ++ gid ++ "/dataflows/" ++ did ++ "/refreshes?procesType=default" : String)
      = "groups/" ++ (gid ++ "/dataflows/" ++ did ++ "/refreshes?procesType=default") := by
    simp [String.append_assoc]
  rw [e1, e2, build_url_groups, build_url_groups] at h
  have hp := append_left_cancel_str h
  rw [← e1, ← e2] at hp
  have h1 : ("groups/" ++ gid ++ "/dataflows/transactions/" ++ tid ++ "/cancel" : String).data.getLast?
      = some 'l' :=
    strLast_append _ "/cancel" 'l' (by decide) (by decide)
  have h2 : ("groups/" ++ gid ++ "/dataflows/" ++ did ++ "/refreshes?procesType=default" : String).data.getLast?
      = some 't' :=
    strLast_append _ "/refreshes?procesType=default" 't' (by decide) (by decide)
  rw [hp, h2] at h1
  exact absurd h1 (by decide)

/-! ## Refresh orchestration (src/pbirestpy/client/session.py, ApiSession)

Awaited effects are recorded as an action trace: HTTP calls, sleeps, and
log lines. The transport is assumed to deliver the refresh history
`history` for the resource's list-refreshes GET; the traces below are the
effects the orchestrator then performs. All trace functions are total, so
"returns normally" is "evaluates to a trace" in this embedding. -/

inductive Action where
  | get (url : String)
  | post (url : String)
  | delete (url : String)
  | sleep (seconds : Nat)
  | logInfo (msg : String)
  | logWarning (msg : String)
  | logError (msg : String)
  | logDebug (msg : String)
deriving DecidableEq, Repr

/-- Delay after canceling a task to ensure backend consistency. -/
def POST_CANCEL_DELAY : Nat := 5

/-- Polling interval when checking refresh status. -/
def PULL_STATUS_INTERVAL : Nat := 10

/-- The `uri` log tag built in `cancel_refresh` and `refresh`. -/
def uriTag (r : Refreshable) : String :=
  let cls := match r.kind with
    | .dataset => "Dataset"
    | .dataflow => "Dataflow"
  "[" ++ cls ++ "][" ++ r.groupName ++ "/" ++ r.name ++ "]"

/-- Embedding of `get_last_refresh`'s selection
`sorted(history, key=lambda x: x.startTime)[-1]`: the stable sort puts the
last-occurring entry of maximal `startTime` last, and an empty history
gives `None`. -/
def lastByStartTime (history : List RefreshRecord) : Option RefreshRecord :=
  history.foldl
    (fun acc rec =>
      match acc with
      | none => some rec
      | some best => if best.startTime ≤ rec.startTime then some rec else some best)
    none

/-- Embedding of `ApiSession.cancel_refresh` on an already-fetched record:
a record that is not in progress yields only an error log and no HTTP
call; otherwise the cancel request is sent (DELETE on the refresh id for a
dataset, POST to the cancel URL for a dataflow), followed by the settle
sleep and an info log. -/
def cancel_refresh (r : Refreshable) (rec : RefreshRecord) : List Action :=
  if rec.is_in_progress = false then
    [Action.logError (uriTag r ++ " failed to cancel a refresh which is not running")]
  else
    (match r.kind with
      | .dataflow => [Action.post (cancel_url r rec)]
      | .dataset => [Action.delete (cancel_url r rec)]) ++
    [Action.sleep POST_CANCEL_DELAY,
     Action.logInfo (uriTag r ++ " [" ++ rec.id ++ "] cancelled.")]

/-- The single HTTP action `cancel_refresh` issues for an in-progress
record. -/
def cancelCallAction (r : Refreshable) (rec : RefreshRecord) : Action :=
  match r.kind with
  | .dataflow => Action.post (cancel_url r rec)
  | .dataset => Action.delete (cancel_url r rec)

/-- Embedding of `ApiSession.refresh` (with `wait_until_complete=False`):
fetch the history (one GET via `get_last_refresh`), decide on the latest
entry, and either return after a skip log, force-cancel then submit, or
submit directly. The submission is the POST to the start-refresh URL. -/
def refreshTrace (r : Refreshable) (history : List RefreshRecord) (force : Bool) :
    List Action :=
  let fetch := [Action.get (list_refreshes_url r)]
  let submit := [Action.logInfo (uriTag r ++ " start to refresh."),
                 Action.post (start_refresh_url r)]
  match lastByStartTime history with
  | some last =>
    if last.is_in_progress then
      if force then
        fetch ++
          [Action.logWarning
            (uriTag r ++ " running task is going to be forcely cancelled to process a new one.")] ++
          cancel_refresh r last ++ submit
      else
        fetch ++ [Action.logInfo (uriTag r ++ " skipped, a refresh is in progress.")]
    else
      fetch ++ submit
  | none => fetch ++ submit

/-- C1: when the latest history entry is in progress and `force` is not
requested, `refresh` performs the history GET, logs the skip, and returns
normally: the trace contains no POST at all, in particular none to the
start-refresh URL. -/
theorem refresh_skips_when_in_progress_without_force (r : Refreshable)
    (history : List RefreshRecord) (last : RefreshRecord)
    (hlast : lastByStartTime history = some last)
    (hip : last.status = RefreshStatus.InProgress) :
    refreshTrace r history false =
      [Action.get (list_refreshes_url r),
       Action.logInfo (uriTag r ++ " skipped, a refresh is in progress.")] ∧
    (∀ u, Action.post u ∉ refreshTrace r history false) ∧
    Action.post (start_refresh_url r) ∉ refreshTrace r history false := by
  have hb : last.is_in_progress = true := by
    simp [RefreshRecord.is_in_progress, hip]
  have ht : refreshTrace r history false =
      [Action.get (list_refreshes_url r),
       Action.logInfo (uriTag r ++ " skipped, a refresh is in progress.")] := by
    simp [refreshTrace, hlast, hb]
  refine ⟨ht, ?_, ?_⟩
  · intro u
    rw [ht]
    simp
  · rw [ht]
    simp

/-- A concrete dataset used in witnesses. -/
def sampleDataset : Refreshable :=
  { kind := RefreshableKind.dataset, id := "d1", name := "Sales",
    groupId := "g1", groupName := "Finance" }

/-- A concrete dataflow used in witnesses. -/
def sampleDataflow : Refreshable :=
  { kind := RefreshableKind.dataflow, id := "f1", name := "Intake",
    groupId := "g2", groupName := "Ops" }

/-- A concrete in-progress history entry used in witnesses. -/
def sampleInProgress : RefreshRecord :=
  { id := "rid", startTime := 3, endTime := none,
    status := RefreshStatus.InProgress }

/-- A concrete completed history entry used in witnesses. -/
def sampleCompleted : RefreshRecord :=
  { id := "old", startTime := 1, endTime := some 2,
    status := RefreshStatus.Completed }

/-- Witness for C1: a dataset whose latest history entry is in progress. -/
theorem refresh_skips_when_in_progress_without_force_witness :
    lastByStartTime [sampleCompleted, sampleInProgress] = some sampleInProgress ∧
    sampleInProgress.status = RefreshStatus.InProgress ∧
    (refreshTrace sampleDataset [sampleCompleted, sampleInProgress] false =
      [Action.get (list_refreshes_url sampleDataset),
       Action.logInfo (uriTag sampleDataset ++ " skipped, a refresh is in progress.")] ∧
      (∀ u, Action.post u ∉ refreshTrace sampleDataset [sampleCompleted, sampleInProgress] false) ∧
      Action.post (start_refresh_url sampleDataset) ∉
        refreshTrace sampleDataset [sampleCompleted, sampleInProgress] false) :=
  ⟨by decide, rfl,
    refresh_skips_when_in_progress_without_force sampleDataset
      [sampleCompleted, sampleInProgress] sampleInProgress (by decide) rfl⟩

/-- C2: when the latest history entry is in progress and `force` is
requested, `refresh` issues exactly one cancel call (DELETE on the refresh
id for a dataset, POST to the cancel URL for a dataflow), then sleeps the
fixed 5-second settle delay, then issues exactly one submission POST to
the start-refresh URL, in that order. -/
theorem refresh_force_cancels_waits_then_submits (r : Refreshable)
    (history : List RefreshRecord) (last : RefreshRecord)
    (hlast : lastByStartTime history = some last)
    (hip : last.status = RefreshStatus.InProgress) :
    refreshTrace r history true =
      [Action.get (list_refreshes_url r),
       Action.logWarning
         (uriTag r ++ " running task is going to be forcely cancelled to process a new one."),
       cancelCallAction r last,
       Action.sleep POST_CANCEL_DELAY,
       Action.logInfo (uriTag r ++ " [" ++ last.id ++ "] cancelled."),
       Action.logInfo (uriTag r ++ " start to refresh."),
       Action.post (start_refresh_url r)] ∧
    (refreshTrace r history true).count (cancelCallAction r last) = 1 ∧
    (refreshTrace r history true).count (Action.post (start_refresh_url r)) = 1 ∧
    cancelCallAction r last = (match r.kind with
      | RefreshableKind.dataset => Action.delete (cancel_url r last)
      | RefreshableKind.dataflow => Action.post (cancel_url r last)) := by
  have hb : last.is_in_progress = true := by
    simp [RefreshRecord.is_in_progress, hip]
  have hcc : cancelCallAction r last = (match r.kind with
      | RefreshableKind.dataset => Action.delete (cancel_url r last)
      | RefreshableKind.dataflow => Action.post (cancel_url r last)) := by
    cases hk : r.kind <;> simp [cancelCallAction, hk]
  have ht : refreshTrace r history true =
      [Action.get (list_refreshes_url r),
       Action.logWarning
         (uriTag r ++ " running task is going to be forcely cancelled to process a new one."),
       cancelCallAction r last,
       Action.sleep POST_CANCEL_DELAY,
       Action.logInfo (uriTag r ++ " [" ++ last.id ++ "] cancelled."),
       Action.logInfo (uriTag r ++ " start to refresh."),
       Action.post (start_refresh_url r)] := by
    cases hk : r.kind <;>
      simp [refreshTrace, hlast, hb, cancel_refresh, cancelCallAction, hk]
  have hne : ∀ hk : r.kind = RefreshableKind.dataflow,
      cancel_url r last ≠ start_refresh_url r := by
    intro hk
    simp only [cancel_url, start_refresh_url, hk]
    exact dataflow_cancel_url_ne_start r.groupId last.id r.id
  refine ⟨ht, ?_, ?_, hcc⟩
  · rw [ht]
    cases hk : r.kind
    · simp [cancelCallAction, hk, List.count_cons]
    · have hd := hne hk
      simp [cancelCallAction, hk, List.count_cons, hd]
  · rw [ht]
    cases hk : r.kind
    · simp [cancelCallAction, hk, List.count_cons]
    · have hd := hne hk
      simp [cancelCallAction, hk, List.count_cons, Ne.symm hd]

/-- Witness for C2: forcing a refresh of a dataflow whose latest entry is
in progress. -/
theorem refresh_force_cancels_waits_then_submits_witness :
    lastByStartTime [sampleCompleted, sampleInProgress] = some sampleInProgress ∧
    sampleInProgress.status = RefreshStatus.InProgress ∧
    (refreshTrace sampleDataflow [sampleCompleted, sampleInProgress] true =
      [Action.get (list_refreshes_url sampleDataflow),
       Action.logWarning
         (uriTag sampleDataflow ++ " running task is going to be forcely cancelled to process a new one."),
       cancelCallAction sampleDataflow sampleInProgress,
       Action.sleep POST_CANCEL_DELAY,
       Action.logInfo (uriTag sampleDataflow ++ " [" ++ sampleInProgress.id ++ "] cancelled."),
       Action.logInfo (uriTag sampleDataflow ++ " start to refresh."),
       Action.post (start_refresh_url sampleDataflow)] ∧
      (refreshTrace sampleDataflow [sampleCompleted, sampleInProgress] true).count
        (cancelCallAction sampleDataflow sampleInProgress) = 1 ∧
      (refreshTrace sampleDataflow [sampleCompleted, sampleInProgress] true).count
        (Action.post (start_refresh_url sampleDataflow)) = 1 ∧
      cancelCallAction sampleDataflow sampleInProgress = (match sampleDataflow.kind with
        | RefreshableKind.dataset => Action.delete (cancel_url sampleDataflow sampleInProgress)
        | RefreshableKind.dataflow => Action.post (cancel_url sampleDataflow sampleInProgress))) :=
  ⟨by decide, rfl,
    refresh_force_cancels_waits_then_submits sampleDataflow
      [sampleCompleted, sampleInProgress] sampleInProgress (by decide) rfl⟩

/-- C8: `cancel_refresh` on a record that is not in progress issues no
HTTP request and returns normally after a single error-level log entry; a
cancel call (POST or DELETE) can appear in the trace only for an
in-progress record. -/
theorem cancel_refresh_requires_in_progress (r : Refreshable) (rec : RefreshRecord)
    (h : rec.status ≠ RefreshStatus.InProgress) :
    cancel_refresh r rec =
      [Action.logError (uriTag r ++ " failed to cancel a refresh which is not running")] ∧
    (∀ u, Action.get u ∉ cancel_refresh r rec ∧ Action.post u ∉ cancel_refresh r rec ∧
      Action.delete u ∉ cancel_refresh r rec) ∧
    (∀ (rec2 : RefreshRecord) (u : String),
      (Action.post u ∈ cancel_refresh r rec2 ∨ Action.delete u ∈ cancel_refresh r rec2) →
      rec2.status = RefreshStatus.InProgress) := by
  have hb : rec.is_in_progress = false := by
    simp [RefreshRecord.is_in_progress]
    exact h
  have ht : cancel_refresh r rec =
      [Action.logError (uriTag r ++ " failed to cancel a refresh which is not running")] := by
    simp [cancel_refresh, hb]
  refine ⟨ht, ?_, ?_⟩
  · intro u
    rw [ht]
    simp
  · intro rec2 u hmem
    by_contra hs
    have hb2 : rec2.is_in_progress = false := by
      simp [RefreshRecord.is_in_progress]
      exact hs
    rw [show cancel_refresh r rec2 =
        [Action.logError (uriTag r ++ " failed to cancel a refresh which is not running")] from
      by simp [cancel_refresh, hb2]] at hmem
    simp at hmem

/-- Witness for C8: canceling a completed refresh of a dataset. -/
theorem cancel_refresh_requires_in_progress_witness :
    sampleCompleted.status ≠ RefreshStatus.InProgress ∧
    (cancel_refresh sampleDataset sampleCompleted =
      [Action.logError
        (uriTag sampleDataset ++ " failed to cancel a refresh which is not running")] ∧
      (∀ u, Action.get u ∉ cancel_refresh sampleDataset sampleCompleted ∧
        Action.post u ∉ cancel_refresh sampleDataset sampleCompleted ∧
        Action.delete u ∉ cancel_refresh sampleDataset sampleCompleted) ∧
      (∀ (rec2 : RefreshRecord) (u : String),
        (Action.post u ∈ cancel_refresh sampleDataset rec2 ∨
          Action.delete u ∈ cancel_refresh sampleDataset rec2) →
        rec2.status = RefreshStatus.InProgress)) :=
  ⟨by decide,
    cancel_refresh_requires_in_progress sampleDataset sampleCompleted (by decide)⟩

/-! ## The wait-until-complete poll step (`ApiSession.refresh.submit`) -/

/-- Python runtime errors surfaced by the poll step. -/
inductive PyErr where
  | indexError
deriving DecidableEq, Repr

/-- What one iteration of the wait loop decides. -/
inductive PollStepResult where
  | continueWaiting (current : RefreshRecord)
  | finished (current : RefreshRecord)
deriving DecidableEq, Repr

/-- The record selected by
`sorted(filter(lambda x: x.startTime > trigger_time, history), key=...)[0]`:
the earliest entry strictly after `t0` (first-occurring on ties, matching
the stable sort), or `none` when no entry qualifies. -/
def firstByStartTimeAfter (t0 : Int) (history : List RefreshRecord) :
    Option RefreshRecord :=
  (history.filter (fun x => t0 < x.startTime)).foldl
    (fun acc rec =>
      match acc with
      | none => some rec
      | some best => if rec.startTime < best.startTime then some rec else some best)
    none

/-- Embedding of one iteration of the wait-until-complete loop body: fetch
delivered `history`, select the current record among entries newer than
the submission time `t0`, then either keep waiting (after the fixed poll
sleep) or finish. Indexing `[0]` into an empty selection is the
`IndexError` branch. -/
def pollStep (t0 : Int) (history : List RefreshRecord) : Except PyErr PollStepResult :=
  match firstByStartTimeAfter t0 history with
  | none => .error .indexError
  | some last =>
    if last.is_in_progress then .ok (.continueWaiting last)
    else .ok (.finished last)

/-- C9: the poll step is not total. When the fetched history has no entry
with `startTime > t0` — including right after submission, before the
backend registers the new refresh — `sorted(filter(...))[0]` raises
`IndexError` instead of reaching the (unreachable) `if last is not None`
guard; with a qualifying entry the step behaves as described. -/
theorem poll_step_crashes_without_newer_entry :
    pollStep 0 [] = Except.error PyErr.indexError ∧
    pollStep 5 [sampleInProgress, sampleCompleted] = Except.error PyErr.indexError ∧
    pollStep 0 [sampleInProgress] =
      Except.ok (PollStepResult.continueWaiting sampleInProgress) ∧
    pollStep 0 [sampleCompleted] =
      Except.ok (PollStepResult.finished sampleCompleted) :=
  ⟨rfl, rfl, rfl, rfl⟩

/-! ## Batch listing across groups (`ApiSession._list_elements_in_groups`) -/

/-- The owning workspace of listed elements. -/
structure Group where
  id : String
  name : String
deriving DecidableEq, Repr

/-- One element entry of a list response's `value` array. -/
structure Payload where
  id : String
  name : String
deriving DecidableEq, Repr

/-- A listed resource as built by `element_type(**data, client=..., group=group)`:
per `BaseResource.__init__`, `group_id` is the owning group's id when a
group is passed. -/
structure ListedElement where
  element_id : String
  name : String
  group_id : String
deriving DecidableEq, Repr

def mkElement (g : Group) (p : Payload) : ListedElement :=
  { element_id := p.id, name := p.name, group_id := g.id }

/-- Embedding of `asyncio.gather`'s documented contract: results are
returned positionally in task-creation order, regardless of the order in
which tasks complete (`completionOrder` is immaterial). -/
def gatherInOrder (tasks : List α) (_completionOrder : List Nat) : List α :=
  tasks

/-- Embedding of `_list_elements_in_groups`: one GET task per group in the
order of the input iterable, `asyncio.gather`, then
`zip(groups, responses)` and `extend` per group. `transport` is the
decoded `value` array each group's list URL returns. -/
def list_elements_in_groups (groups : List Group) (transport : Group → List Payload)
    (completionOrder : List Nat) : List ListedElement :=
  let responses := gatherInOrder (groups.map transport) completionOrder
  (groups.zip responses).flatMap (fun gr => gr.2.map (mkElement gr.1))

theorem zip_map_bind (groups : List Group) (transport : Group → List Payload) :
    (groups.zip (groups.map transport)).flatMap (fun gr => gr.2.map (mkElement gr.1))
      = groups.flatMap (fun g => (transport g).map (mkElement g)) := by
  induction groups with
  | nil => rfl
  | cons g gs ih => simp [List.zip_cons_cons, List.flatMap_cons, ih]

/-- C6: listing elements across groups returns the per-group results
concatenated in the order of the input iterable of groups, independent of
response completion order, and every element is tagged with its owning
group's id. -/
theorem list_elements_order_and_tagging (groups : List Group)
    (transport : Group → List Payload) (ord ord2 : List Nat) :
    list_elements_in_groups groups transport ord
      = groups.flatMap (fun g => (transport g).map (mkElement g)) ∧
    list_elements_in_groups groups transport ord
      = list_elements_in_groups groups transport ord2 ∧
    (∀ g ∈ groups, ∀ p ∈ transport g, (mkElement g p).group_id = g.id) := by
  refine ⟨?_, ?_, ?_⟩
  · unfold list_elements_in_groups gatherInOrder
    exact zip_map_bind groups transport
  · rfl
  · intro g _ p _
    rfl

/-- Witness for C6: two groups with 5 and 3 datasets give 8 elements in
group-then-listing order, each tagged with its owning group's id. -/
theorem list_elements_order_and_tagging_witness :
    (list_elements_in_groups
        [{ id := "gA", name := "A" }, { id := "gB", name := "B" }]
        (fun g => if g.id = "gA" then
          [{ id := "a1", name := "n1" }, { id := "a2", name := "n2" },
           { id := "a3", name := "n3" }, { id := "a4", name := "n4" },
           { id := "a5", name := "n5" }]
          else
          [{ id := "b1", name := "m1" }, { id := "b2", name := "m2" },
           { id := "b3", name := "m3" }]) [1, 0]
      = ([{ id := "gA", name := "A" }, { id := "gB", name := "B" }] : List Group).flatMap
          (fun g => ((fun g => if g.id = "gA" then
            [{ id := "a1", name := "n1" }, { id := "a2", name := "n2" },
             { id := "a3", name := "n3" }, { id := "a4", name := "n4" },
             { id := "a5", name := "n5" }]
            else
            [{ id := "b1", name := "m1" }, { id := "b2", name := "m2" },
             { id := "b3", name := "m3" }] : Group → List Payload) g).map (mkElement g)) ∧
      list_elements_in_groups
        [{ id := "gA", name := "A" }, { id := "gB", name := "B" }]
        (fun g => if g.id = "gA" then
          [{ id := "a1", name := "n1" }, { id := "a2", name := "n2" },
           { id := "a3", name := "n3" }, { id := "a4", name := "n4" },
           { id := "a5", name := "n5" }]
          else
          [{ id := "b1", name := "m1" }, { id := "b2", name := "m2" },
           { id := "b3", name := "m3" }]) [1, 0]
      = list_elements_in_groups
        [{ id := "gA", name := "A" }, { id := "gB", name := "B" }]
        (fun g => if g.id = "gA" then
          [{ id := "a1", name := "n1" }, { id := "a2", name := "n2" },
           { id := "a3", name := "n3" }, { id := "a4", name := "n4" },
           { id := "a5", name := "n5" }]
          else
          [{ id := "b1", name := "m1" }, { id := "b2", name := "m2" },
           { id := "b3", name := "m3" }]) [0, 1] ∧
      (∀ g ∈ ([{ id := "gA", name := "A" }, { id := "gB", name := "B" }] : List Group),
        ∀ p ∈ (if g.id = "gA" then
          [{ id := "a1", name := "n1" }, { id := "a2", name := "n2" },
           { id := "a3", name := "n3" }, { id := "a4", name := "n4" },
           { id := "a5", name := "n5" }]
          else
          [({ id := "b1", name := "m1" } : Payload), { id := "b2", name := "m2" },
           { id := "b3", name := "m3" }]),
          (mkElement g p).group_id = g.id)) :=
  list_elements_order_and_tagging
    [{ id := "gA", name := "A" }, { id := "gB", name := "B" }]
    (fun g => if g.id = "gA" then
      [{ id := "a1", name := "n1" }, { id := "a2", name := "n2" },
       { id := "a3", name := "n3" }, { id := "a4", name := "n4" },
       { id := "a5", name := "n5" }]
      else
      [{ id := "b1", name := "m1" }, { id := "b2", name := "m2" },
       { id := "b3", name := "m3" }]) [1, 0] [0, 1]

end PbiRest
